import Mathlib

/-!
TweetX backend: follow/unfollow, posts and feed.

A shallow embedding of the route handlers of `src/server.js` (the copy under
`src/netlify/functions/server.js` has the same handlers). The two Mongoose
collections are lists of documents; every handler is a pure function from the
store and the request to the new store and the response.

Modelling conventions:

* an `ObjectId` is an identifier in canonical form, so that the comparisons the
  handlers make (`includes`, `toString() !== ...`, `findById`, `$in`) are
  equality of identifiers; a request field that may be absent is an `Option`;
* the follow route is also given on the strings of the request (`postFollow`):
  a string that does not cast to an `ObjectId` makes `findById` throw, which the
  handler catches and answers with 500;
* `findById` reads the first document with the identifier, `save` writes the
  paths the handler modified to that document; a `save` that replaces an array
  is refused when the document was saved since it was read, which the follow
  route meets where the two documents it read are one;
* identifiers of new documents and the clock are inputs of the handler; an
  insert whose identifier (or unique email) is taken fails as the driver does;
* numbers are `Int`, strings are measured in UTF-16 code units as `.length` does.
-/

namespace TweetX

/-- An identifier of a document (`mongoose.Schema.Types.ObjectId`). -/
abbrev ObjectId := Nat

/-- A document of `UserSchema`. -/
structure User where
  _id : ObjectId
  name : Option String
  email : Option String
  password : String
  followersCount : Int
  followingCount : Int
  followersList : List ObjectId
  followingList : List ObjectId
  postsCount : Int
  postsList : List ObjectId
deriving DecidableEq, Repr

/-- A document of `PostSchema`. -/
structure Post where
  _id : ObjectId
  user : ObjectId
  content : String
  createdAt : Nat
deriving DecidableEq, Repr

/-- The two collections. -/
structure Store where
  users : List User
  posts : List Post
deriving DecidableEq, Repr

/-- The store before any request. -/
def Store.empty : Store := { users := [], posts := [] }

/-- Model of `User.findById(id)`: the first document with that identifier; an absent
identifier resolves to no document. -/
def findById (users : List User) : Option ObjectId → Option User
  | none => none
  | some id => users.find? (fun u => decide (u._id = id))

/-- The write of `doc.save()` on an existing document: the modified paths, given
as `f`, are set on the first document with identifier `id`. -/
def updateOne (id : ObjectId) (f : User → User) : List User → List User
  | [] => []
  | u :: us => if u._id = id then f u :: us else u :: updateOne id f us

/-- The value of `Math.max(0, n - 1)`. -/
def decrFloor (n : Int) : Int := max 0 (n - 1)

/-- The body of a response of `POST /follow/:id`. -/
inductive FollowBody where
  | userNotFound
  | followed (followedUser : User)
  | unfollowed
  | error
deriving DecidableEq, Repr

/-- A response: the HTTP status and the JSON body. -/
structure Response (β : Type) where
  status : Nat
  body : β
deriving DecidableEq, Repr

/-- Handler `app.post("/follow/:id")` on identifiers that cast: `id` is
`req.params.id`, `userId` is `req.body.userId`. On the unfollow branch each
`save` replaces an array, so it asks for the version it read: where the two
documents are one, the second `save` throws after the first went through, and
the `catch` answers 500. -/
def toggleFollow (s : Store) (id : ObjectId) (userId : Option ObjectId) :
    Store × Response FollowBody :=
  match findById s.users (some id), findById s.users userId, userId with
  | some userToFollow, some userFollowing, some uid =>
    if ¬ uid ∈ userToFollow.followersList then
      -- Follow the user
      let followersList := userToFollow.followersList ++ [uid]
      let followersCount : Int := followersList.length
      let followingList := userFollowing.followingList ++ [userToFollow._id]
      let followingCount : Int := followingList.length
      let users1 := updateOne userToFollow._id
        (fun d => { d with followersList := followersList, followersCount := followersCount })
        s.users
      let users2 := updateOne userFollowing._id
        (fun d => { d with followingList := followingList, followingCount := followingCount })
        users1
      ({ s with users := users2 },
        { status := 200,
          body := .followed { userToFollow with
            followersList := followersList, followersCount := followersCount } })
    else
      -- Unfollow the user
      let followersList := userToFollow.followersList.filter (fun followerId => followerId ≠ uid)
      -- `followersCount -= Math.max(0, followersCount - 1)`
      let followersCount := userToFollow.followersCount - decrFloor userToFollow.followersCount
      let followingList :=
        userFollowing.followingList.filter (fun followingId => followingId ≠ userToFollow._id)
      let followingCount := decrFloor userFollowing.followingCount
      let users1 := updateOne userToFollow._id
        (fun d => { d with followersList := followersList, followersCount := followersCount })
        s.users
      if userFollowing._id = userToFollow._id then
        ({ s with users := users1 }, { status := 500, body := .error })
      else
        let users2 := updateOne userFollowing._id
          (fun d => { d with followingList := followingList, followingCount := followingCount })
          users1
        ({ s with users := users2 }, { status := 200, body := .unfollowed })
  | _, _, _ => (s, { status := 404, body := .userNotFound })

/-- Handler `app.post("/follow/:id")` on the strings of the request: `rawId` is
`req.params.id`, `rawUserId` is `req.body.userId`, and `cast` is the cast of a
string to an `ObjectId` that `findById` makes. `User.findById` throws on a string
that does not cast, before any write, and the `catch` answers 500. -/
def postFollow (cast : String → Option ObjectId) (s : Store) (rawId : String)
    (rawUserId : Option String) : Store × Response FollowBody :=
  match cast rawId with
  | none => (s, { status := 500, body := .error })
  | some id =>
    match rawUserId with
    | none => toggleFollow s id none
    | some raw =>
      match cast raw with
      | none => (s, { status := 500, body := .error })
      | some uid => toggleFollow s id (some uid)

/-- A request identifier is malformed when it is there and does not cast to an
`ObjectId`. -/
def malformed (cast : String → Option ObjectId) : Option String → Bool
  | none => false
  | some raw => (cast raw).isNone

/-- The user that a request identifier resolves to: the document of the
`ObjectId` it casts to. -/
def resolveUser (cast : String → Option ObjectId) (users : List User)
    (raw : Option String) : Option User :=
  findById users (raw.bind cast)

/-- The value of a hexadecimal digit in lower case. -/
def hexDigitValue (c : Char) : Option Nat :=
  if 48 ≤ c.toNat ∧ c.toNat ≤ 57 then some (c.toNat - 48)
  else if 97 ≤ c.toNat ∧ c.toNat ≤ 102 then some (c.toNat - 87)
  else none

/-- The cast on the canonical spelling of an `ObjectId`: a string of 24
hexadecimal digits in lower case casts to the number it spells, a string of
another length or with another character does not cast. -/
def canonicalObjectId (raw : String) : Option ObjectId :=
  if raw.toList.length = 24 then
    raw.toList.foldl
      (fun acc c =>
        match acc, hexDigitValue c with
        | some n, some d => some (16 * n + d)
        | _, _ => none)
      (some 0)
  else none

/-- The body of a response of `POST /register`. -/
inductive RegisterBody where
  | registered
  | error
deriving DecidableEq, Repr

/-- Handler `app.post("/register")`: `hash` is `bcrypt.hash(·, saltRounds)`, `newId` the
identifier given to the new document. `bcrypt.hash` throws on an absent
password, and the insert throws on a taken identifier or a taken email (the
unique index); each is answered with 400. -/
def register (hash : String → String) (s : Store) (newId : ObjectId)
    (name email password : Option String) : Store × Response RegisterBody :=
  match password with
  | none => (s, { status := 400, body := .error })
  | some pw =>
    let newUser : User :=
      { _id := newId, name := name, email := email, password := hash pw,
        followersCount := 0, followingCount := 0, followersList := [], followingList := [],
        postsCount := 0, postsList := [] }
    if s.users.any (fun u => decide (u._id = newId) || decide (u.email = email)) then
      (s, { status := 400, body := .error })
    else
      ({ s with users := s.users ++ [newUser] }, { status := 201, body := .registered })

/-- The `.length` of a JavaScript string: its number of UTF-16 code units. -/
def jsLength (str : String) : Nat :=
  (str.toList.map (fun c => if c.toNat < 65536 then 1 else 2)).sum

/-- The `user` object of the response of `POST /posts`. -/
structure PostUserInfo where
  id : ObjectId
  name : Option String
  postsCount : Int
deriving DecidableEq, Repr

/-- The body of a response of `POST /posts`. -/
inductive PostBody where
  | invalidPostData
  | userNotFound
  | created (post : Post) (user : PostUserInfo)
  | error
deriving DecidableEq, Repr

/-- The guard `!userId || !content || content.length > 100`. -/
def invalidPostData (userId : Option ObjectId) (content : Option String) : Bool :=
  match userId, content with
  | none, _ => true
  | some _, none => true
  | some _, some c => c == "" || decide (jsLength c > 100)

/-- Handler `app.post("/posts")`: `newId` is the identifier given to the new post, `now`
the value of `Date.now`. An insert on a taken identifier throws and is answered
with 500. -/
def createPost (s : Store) (newId : ObjectId) (now : Nat) (userId : Option ObjectId)
    (content : Option String) : Store × Response PostBody :=
  if invalidPostData userId content then
    (s, { status := 400, body := .invalidPostData })
  else
    match findById s.users userId, userId, content with
    | some user, some uid, some c =>
      let newPost : Post := { _id := newId, user := uid, content := c, createdAt := now }
      if s.posts.any (fun p => decide (p._id = newId)) then
        (s, { status := 500, body := .error })
      else
        let posts := s.posts ++ [newPost]
        let postsList := user.postsList ++ [newPost._id]
        let postsCount : Int := postsList.length
        let users := updateOne user._id
          (fun d => { d with postsList := postsList, postsCount := postsCount }) s.users
        ({ users := users, posts := posts },
          { status := 201,
            body := .created newPost { id := user._id, name := user.name, postsCount := postsCount } })
    | _, _, _ => (s, { status := 404, body := .userNotFound })

/-- The owner of a post after `.populate("user", "name profileImageUrl")`; the
schema has no `profileImageUrl` path. -/
structure PostOwner where
  _id : ObjectId
  name : Option String
deriving DecidableEq, Repr

/-- A post of the feed: the post with its `user` path populated (`none` when the
owner is no document). -/
structure FeedPost where
  _id : ObjectId
  user : Option PostOwner
  content : String
  createdAt : Nat
deriving DecidableEq, Repr

/-- The call `.populate("user", "name profileImageUrl")` on one post. -/
def populateUser (users : List User) (p : Post) : FeedPost :=
  { _id := p._id,
    user := (findById users (some p.user)).map (fun u => { _id := u._id, name := u.name }),
    content := p.content,
    createdAt := p.createdAt }

/-- The order of `.sort({ createdAt: -1 })`. -/
def newerFirst (p q : Post) : Prop := q.createdAt ≤ p.createdAt

instance : DecidableRel newerFirst := fun p q => Nat.decLe q.createdAt p.createdAt

/-- The query `Post.find({ user: { $in: followingList } }).sort({ createdAt: -1 })`.
The order among posts of one timestamp, which the database leaves open, is here
that of the collection. -/
def findPostsIn (posts : List Post) (followingList : List ObjectId) : List Post :=
  (posts.filter (fun p => decide (p.user ∈ followingList))).insertionSort newerFirst

/-- The body of a response of `GET /user/:id/feed`. -/
inductive FeedBody where
  | userNotFound
  | feed (feedPosts : List FeedPost)
deriving DecidableEq, Repr

/-- Handler `app.get("/user/:id/feed")`. -/
def getFeed (s : Store) (userId : ObjectId) : Response FeedBody :=
  match findById s.users (some userId) with
  | none => { status := 404, body := .userNotFound }
  | some currentUser =>
    let followingList := currentUser.followingList
    let feedPosts := (findPostsIn s.posts followingList).map (populateUser s.users)
    { status := 200, body := .feed feedPosts }

/-- An entry of the response of `GET /userStatus`; `profileImageUrl` is no path of
the schema and is left out of the JSON. -/
structure UserStatusEntry where
  _id : ObjectId
  name : Option String
  followingCount : Int
  isFollowing : Bool
  followersList : List ObjectId
  followersCount : Int
  followingList : List ObjectId
deriving DecidableEq, Repr

/-- The test `followersList.includes(currentUserId)`, false for an absent identifier. -/
def includes (list : List ObjectId) : Option ObjectId → Bool
  | none => false
  | some id => decide (id ∈ list)

/-- Handler `app.get("/userStatus")`: `q` is `req.query.q`. -/
def userStatus (s : Store) (q : Option ObjectId) : Response (List UserStatusEntry) :=
  let currentUserId := q
  let users := s.users
  let result := (users.filter (fun user => decide (some user._id ≠ q))).map (fun user =>
    let isFollowing := includes user.followersList currentUserId
    { _id := user._id,
      name := user.name,
      followingCount := user.followingCount,
      isFollowing := isFollowing,
      followersList := user.followersList,
      followersCount := user.followersCount,
      followingList := user.followingList })
  { status := 200, body := result }

/-- The invariant of a user document in the data model: each counter is the
length of its list. -/
def countsAgree (u : User) : Prop :=
  u.followersCount = (u.followersList.length : Int)
    ∧ u.followingCount = (u.followingList.length : Int)
    ∧ u.postsCount = (u.postsList.length : Int)

instance : DecidablePred countsAgree := fun u => by
  unfold countsAgree
  infer_instance

instance : IsTotal Post newerFirst := ⟨fun p q => Nat.le_total q.createdAt p.createdAt⟩

instance : IsTrans Post newerFirst := ⟨fun _ _ _ h1 h2 => Nat.le_trans h2 h1⟩

/-- The follow edges of a collection are kept on both sides: for all users `x`
and `y` of the collection, `x` is in the followers list of `y` exactly when `y`
is in the following list of `x`. -/
def edgesConsistent (users : List User) : Prop :=
  ∀ x ∈ users, ∀ y ∈ users, (x._id ∈ y.followersList ↔ y._id ∈ x.followingList)

instance (users : List User) : Decidable (edgesConsistent users) := by
  unfold edgesConsistent
  infer_instance

/-! ## Example documents -/

/-- A user with identifier 1 who follows nobody. -/
def aliceNew : User :=
  { _id := 1, name := some "alice", email := some "alice@example.org", password := "h1",
    followersCount := 0, followingCount := 0, followersList := [], followingList := [],
    postsCount := 0, postsList := [] }

/-- A user with identifier 2 whom nobody follows. -/
def bobNew : User :=
  { _id := 2, name := some "bob", email := some "bob@example.org", password := "h2",
    followersCount := 0, followingCount := 0, followersList := [], followingList := [],
    postsCount := 0, postsList := [] }

/-- The store of two users and no follow edge. -/
def twoUsers : Store := { users := [aliceNew, bobNew], posts := [] }

/-- The store of two users where user 1 follows user 2, as the follow branch
leaves it. -/
def oneEdge : Store :=
  { users :=
      [{ aliceNew with followingList := [2], followingCount := 1 },
       { bobNew with followersList := [1], followersCount := 1 }],
    posts := [] }

/-- A store of three users and three posts where user 1 follows users 2 and 3. -/
def feedStore : Store :=
  { users :=
      [{ aliceNew with followingList := [2, 3], followingCount := 2, postsList := [12],
                       postsCount := 1 },
       { bobNew with followersList := [1], followersCount := 1, postsList := [10],
                     postsCount := 1 },
       { _id := 3, name := some "carol", email := some "carol@example.org", password := "h3",
         followersCount := 1, followingCount := 0, followersList := [1], followingList := [],
         postsCount := 1, postsList := [11] }],
    posts :=
      [{ _id := 10, user := 2, content := "first", createdAt := 100 },
       { _id := 11, user := 3, content := "second", createdAt := 200 },
       { _id := 12, user := 1, content := "mine", createdAt := 300 }] }

/-- A content of `n` code units. -/
def contentOfLength (n : Nat) : String := String.mk (List.replicate n 'a')

/-- The scenario of two registrations, a follow and a post, from the empty store:
`a` and `b` register, `a` follows `b`, `b` posts `content`. -/
def followThenPost (hash : String → String) (a b postId now : Nat)
    (nameA nameB emailA emailB : Option String) (pwA pwB content : String) : Store :=
  let s1 := (register hash Store.empty a nameA emailA (some pwA)).1
  let s2 := (register hash s1 b nameB emailB (some pwB)).1
  let s3 := (toggleFollow s2 b (some a)).1
  (createPost s3 postId now (some b) (some content)).1

/-! ## The documents after a write -/

/-- A document that `findById` returns has the identifier asked for. -/
theorem findById_id {users : List User} {id : ObjectId} {u : User}
    (h : findById users (some id) = some u) : u._id = id := by
  have h1 := List.find?_some h
  simpa using h1

/-- A document that `findById` returns is in the collection. -/
theorem findById_mem {users : List User} {id : ObjectId} {u : User}
    (h : findById users (some id) = some u) : u ∈ users :=
  List.mem_of_find?_eq_some h

/-- Reading after a write that keeps the identifier: the document written is read
back modified, every other document as it was. -/
theorem findById_updateOne (id j : ObjectId) (f : User → User)
    (hf : ∀ d, (f d)._id = d._id) (users : List User) :
    findById (updateOne id f users) (some j)
      = (findById users (some j)).map (fun u => if j = id then f u else u) := by
  induction users with
  | nil => simp [findById, updateOne]
  | cons u us ih =>
    simp only [findById] at ih ⊢
    by_cases hu : u._id = id
    · by_cases hj : j = id
      · subst hj
        simp [updateOne, hu, hf, List.find?_cons]
      · have hne : ¬ id = j := fun h => hj h.symm
        simp [updateOne, hu, hf, List.find?_cons, hne, hj]
    · by_cases huj : u._id = j
      · have hj : ¬ j = id := fun h => hu (huj.trans h)
        simp [updateOne, hu, List.find?_cons, huj, hj]
      · simp only [updateOne, hu, if_false, List.find?_cons, huj, decide_False]
        exact ih

/-- A write keeps the identifiers of the collection, in order. -/
theorem map_id_updateOne (id : ObjectId) (f : User → User)
    (hf : ∀ d, (f d)._id = d._id) (users : List User) :
    (updateOne id f users).map User._id = users.map User._id := by
  induction users with
  | nil => rfl
  | cons u us ih =>
    by_cases hu : u._id = id
    · simp [updateOne, hu, hf]
    · simp [updateOne, hu, ih]

/-- The handler on its follow branch. -/
theorem toggleFollow_follow_eq (s : Store) (a b : ObjectId) (ua ub : User)
    (ha : findById s.users (some a) = some ua) (hb : findById s.users (some b) = some ub)
    (hnot : a ∉ ub.followersList) :
    (toggleFollow s b (some a)).1.users
        = updateOne a (fun d => { d with
            followingList := ua.followingList ++ [b],
            followingCount := ((ua.followingList ++ [b]).length : Int) }) (updateOne b
          (fun d => { d with
            followersList := ub.followersList ++ [a],
            followersCount := ((ub.followersList ++ [a]).length : Int) }) s.users)
      ∧ (toggleFollow s b (some a)).1.posts = s.posts
      ∧ (toggleFollow s b (some a)).2
        = { status := 200,
            body := .followed { ub with
              followersList := ub.followersList ++ [a],
              followersCount := ((ub.followersList ++ [a]).length : Int) } } := by
  have hida := findById_id ha
  have hidb := findById_id hb
  simp only [toggleFollow, ha, hb, hnot, not_false_eq_true, if_true, hida, hidb, and_self]

/-- The handler on its unfollow branch, for distinct users. -/
theorem toggleFollow_unfollow_eq (s : Store) (a b : ObjectId) (ua ub : User) (hab : a ≠ b)
    (ha : findById s.users (some a) = some ua) (hb : findById s.users (some b) = some ub)
    (hin : a ∈ ub.followersList) :
    (toggleFollow s b (some a)).1.users
        = updateOne a (fun d => { d with
            followingList := ua.followingList.filter (fun followingId => followingId ≠ b),
            followingCount := decrFloor ua.followingCount }) (updateOne b
          (fun d => { d with
            followersList := ub.followersList.filter (fun followerId => followerId ≠ a),
            followersCount := ub.followersCount - decrFloor ub.followersCount }) s.users)
      ∧ (toggleFollow s b (some a)).1.posts = s.posts
      ∧ (toggleFollow s b (some a)).2 = { status := 200, body := .unfollowed } := by
  have hida := findById_id ha
  have hidb := findById_id hb
  simp only [toggleFollow, ha, hb, hin, not_true_eq_false, if_false, hida, hidb, hab, and_self]

/-- The two documents after the follow branch, for distinct users. -/
theorem findById_after_follow (s : Store) (a b : ObjectId) (ua ub : User) (hab : a ≠ b)
    (ha : findById s.users (some a) = some ua) (hb : findById s.users (some b) = some ub)
    (hnot : a ∉ ub.followersList) :
    findById (toggleFollow s b (some a)).1.users (some a)
        = some { ua with
            followingList := ua.followingList ++ [b],
            followingCount := ((ua.followingList ++ [b]).length : Int) }
      ∧ findById (toggleFollow s b (some a)).1.users (some b)
        = some { ub with
            followersList := ub.followersList ++ [a],
            followersCount := ((ub.followersList ++ [a]).length : Int) } := by
  have hba : b ≠ a := fun h => hab h.symm
  rw [(toggleFollow_follow_eq s a b ua ub ha hb hnot).1]
  constructor
  · rw [findById_updateOne, findById_updateOne, ha]
    · simp [hab]
    · exact fun _ => rfl
    · exact fun _ => rfl
  · rw [findById_updateOne, findById_updateOne, hb]
    · simp [hba]
    · exact fun _ => rfl
    · exact fun _ => rfl

/-- The two documents after the unfollow branch, for distinct users. -/
theorem findById_after_unfollow (s : Store) (a b : ObjectId) (ua ub : User) (hab : a ≠ b)
    (ha : findById s.users (some a) = some ua) (hb : findById s.users (some b) = some ub)
    (hin : a ∈ ub.followersList) :
    findById (toggleFollow s b (some a)).1.users (some a)
        = some { ua with
            followingList := ua.followingList.filter (fun followingId => followingId ≠ b),
            followingCount := decrFloor ua.followingCount }
      ∧ findById (toggleFollow s b (some a)).1.users (some b)
        = some { ub with
            followersList := ub.followersList.filter (fun followerId => followerId ≠ a),
            followersCount := ub.followersCount - decrFloor ub.followersCount } := by
  have hba : b ≠ a := fun h => hab h.symm
  rw [(toggleFollow_unfollow_eq s a b ua ub hab ha hb hin).1]
  constructor
  · rw [findById_updateOne, findById_updateOne, ha]
    · simp [hab]
    · exact fun _ => rfl
    · exact fun _ => rfl
  · rw [findById_updateOne, findById_updateOne, hb]
    · simp [hba]
    · exact fun _ => rfl
    · exact fun _ => rfl

/-! ## ToggleFollow -/

/-- C1: for distinct existing users `a` and `b` with `a` not in the followers list
of `b`, after `toggleFollow s b (some a)` (POST /follow/b with body userId = a) the
following list of `a` contains `b`, the followers list of `b` contains `a`, the
followers count of `b` is the length of its followers list and the following count
of `a` is the length of its following list. -/
theorem toggleFollow_follow (s : Store) (a b : ObjectId) (ua ub : User) (hab : a ≠ b)
    (ha : findById s.users (some a) = some ua) (hb : findById s.users (some b) = some ub)
    (hnot : a ∉ ub.followersList) :
    ∃ ua' ub', findById (toggleFollow s b (some a)).1.users (some a) = some ua'
      ∧ findById (toggleFollow s b (some a)).1.users (some b) = some ub'
      ∧ b ∈ ua'.followingList
      ∧ a ∈ ub'.followersList
      ∧ ub'.followersCount = (ub'.followersList.length : Int)
      ∧ ua'.followingCount = (ua'.followingList.length : Int) := by
  obtain ⟨h1, h2⟩ := findById_after_follow s a b ua ub hab ha hb hnot
  exact ⟨_, _, h1, h2, by simp, by simp, rfl, rfl⟩

/-- Witness of C1 on the store of two users: user 1 follows user 2. -/
theorem toggleFollow_follow_witness :
    ∃ ua' ub', findById (toggleFollow twoUsers 2 (some 1)).1.users (some 1) = some ua'
      ∧ findById (toggleFollow twoUsers 2 (some 1)).1.users (some 2) = some ub'
      ∧ 2 ∈ ua'.followingList
      ∧ 1 ∈ ub'.followersList
      ∧ ub'.followersCount = (ub'.followersList.length : Int)
      ∧ ua'.followingCount = (ua'.followingList.length : Int) :=
  toggleFollow_follow twoUsers 1 2 aliceNew bobNew (by decide) rfl rfl (by simp [bobNew])

/-- C2: for distinct existing users `a` and `b` with `a` not in the followers list
of `b`, two calls of `toggleFollow · b (some a)` in succession (a follow, then an
unfollow) end in a store where `a` is not in the followers list of `b` and `b` is
not in the following list of `a`. -/
theorem toggleFollow_twice (s : Store) (a b : ObjectId) (ua ub : User) (hab : a ≠ b)
    (ha : findById s.users (some a) = some ua) (hb : findById s.users (some b) = some ub)
    (hnot : a ∉ ub.followersList) :
    ∃ ua' ub',
      findById (toggleFollow (toggleFollow s b (some a)).1 b (some a)).1.users (some a) = some ua'
      ∧ findById (toggleFollow (toggleFollow s b (some a)).1 b (some a)).1.users (some b)
          = some ub'
      ∧ a ∉ ub'.followersList
      ∧ b ∉ ua'.followingList
      ∧ (toggleFollow s b (some a)).2.status = 200
      ∧ (toggleFollow (toggleFollow s b (some a)).1 b (some a)).2
          = { status := 200, body := .unfollowed } := by
  obtain ⟨h1, h2⟩ := findById_after_follow s a b ua ub hab ha hb hnot
  have hin : a ∈ ({ ub with
      followersList := ub.followersList ++ [a],
      followersCount := ((ub.followersList ++ [a]).length : Int) } : User).followersList := by
    simp
  obtain ⟨h3, h4⟩ := findById_after_unfollow _ a b _ _ hab h1 h2 hin
  refine ⟨_, _, h3, h4, ?_, ?_, ?_, ?_⟩
  · simp [List.mem_filter]
  · simp [List.mem_filter]
  · rw [(toggleFollow_follow_eq s a b ua ub ha hb hnot).2.2]
  · exact (toggleFollow_unfollow_eq _ a b _ _ hab h1 h2 hin).2.2

/-- Witness of C2 on the store of two users: user 1 follows, then unfollows, user 2. -/
theorem toggleFollow_twice_witness :
    ∃ ua' ub',
      findById (toggleFollow (toggleFollow twoUsers 2 (some 1)).1 2 (some 1)).1.users (some 1)
          = some ua'
      ∧ findById (toggleFollow (toggleFollow twoUsers 2 (some 1)).1 2 (some 1)).1.users (some 2)
          = some ub'
      ∧ 1 ∉ ub'.followersList
      ∧ 2 ∉ ua'.followingList
      ∧ (toggleFollow twoUsers 2 (some 1)).2.status = 200
      ∧ (toggleFollow (toggleFollow twoUsers 2 (some 1)).1 2 (some 1)).2
          = { status := 200, body := .unfollowed } :=
  toggleFollow_twice twoUsers 1 2 aliceNew bobNew (by decide) rfl rfl (by simp [bobNew])

/-- On identifiers that cast, `toggleFollow` answers 404 if and only if the target
identifier or the acting identifier resolves to no user, and a call answered 404
is exactly one that returns the store as it was with the body "User not found". -/
theorem toggleFollow_notFound_iff (s : Store) (id : ObjectId) (userId : Option ObjectId) :
    ((toggleFollow s id userId).2.status = 404
        ↔ (findById s.users (some id) = none ∨ findById s.users userId = none))
      ∧ ((toggleFollow s id userId).2.status = 404
        ↔ toggleFollow s id userId = (s, { status := 404, body := .userNotFound })) := by
  unfold toggleFollow
  cases h1 : findById s.users (some id) with
  | none => simp
  | some userToFollow =>
    cases userId with
    | none => simp [findById]
    | some uid =>
      cases h2 : findById s.users (some uid) with
      | none => simp
      | some userFollowing =>
        by_cases h : uid ∈ userToFollow.followersList
        · by_cases h3 : userFollowing._id = userToFollow._id <;> simp [h, h3]
        · simp [h]

/-- C8, as stated, fails on the request `POST /follow/not-an-object-id` with the
identifier of user 1 in the body: the target identifier resolves to no user, and
the answer is 500 with the store as it was, not 404. -/
theorem postFollow_malformed_target :
    resolveUser canonicalObjectId twoUsers.users (some "not-an-object-id") = none
      ∧ postFollow canonicalObjectId twoUsers "not-an-object-id"
          (some "000000000000000000000001")
        = (twoUsers, { status := 500, body := .error })
      ∧ ¬ ((postFollow canonicalObjectId twoUsers "not-an-object-id"
              (some "000000000000000000000001")).2.status = 404
          ↔ (resolveUser canonicalObjectId twoUsers.users (some "not-an-object-id") = none
              ∨ resolveUser canonicalObjectId twoUsers.users
                  (some "000000000000000000000001") = none)) := by
  refine ⟨rfl, rfl, ?_⟩
  intro h
  have h404 := h.mpr (Or.inl rfl)
  revert h404
  decide

/-- C8, amended: whatever the cast, `postFollow` answers 404 if and only if
neither identifier is malformed and the target identifier or the acting
identifier resolves to no user; a call answered 404 is exactly one that returns
the store as it was with the body "User not found"; and a call with a malformed
identifier returns the store as it was with status 500. -/
theorem postFollow_notFound_iff (cast : String → Option ObjectId) (s : Store)
    (rawId : String) (rawUserId : Option String) :
    ((postFollow cast s rawId rawUserId).2.status = 404
        ↔ (malformed cast (some rawId) = false ∧ malformed cast rawUserId = false
            ∧ (resolveUser cast s.users (some rawId) = none
                ∨ resolveUser cast s.users rawUserId = none)))
      ∧ ((postFollow cast s rawId rawUserId).2.status = 404
        ↔ postFollow cast s rawId rawUserId = (s, { status := 404, body := .userNotFound }))
      ∧ ((malformed cast (some rawId) = true ∨ malformed cast rawUserId = true) →
          postFollow cast s rawId rawUserId = (s, { status := 500, body := .error })) := by
  unfold postFollow
  cases hid : cast rawId with
  | none => simp [malformed, hid]
  | some id =>
    cases rawUserId with
    | none =>
      have h := toggleFollow_notFound_iff s id none
      simp only [malformed, resolveUser, hid, Option.some_bind, Option.none_bind,
        Option.isNone_some, true_and]
      exact ⟨h.1, h.2, by simp⟩
    | some raw =>
      cases huid : cast raw with
      | none => simp [malformed, huid]
      | some uid =>
        have h := toggleFollow_notFound_iff s id (some uid)
        simp only [malformed, resolveUser, hid, huid, Option.some_bind, Option.isNone_some,
          true_and]
        exact ⟨h.1, h.2, by simp⟩

/-- Witness of the amended C8: the request with the malformed target identifier
`not-an-object-id` is answered 500 on the store of two users, which it leaves as
it was. -/
theorem postFollow_notFound_iff_witness :
    postFollow canonicalObjectId twoUsers "not-an-object-id" (some "000000000000000000000001")
      = (twoUsers, { status := 500, body := .error }) :=
  (postFollow_notFound_iff canonicalObjectId twoUsers "not-an-object-id"
    (some "000000000000000000000001")).2.2 (Or.inl (by decide))

/-! ## The counters -/

/-- A document after a write is a document of before or the written one. -/
theorem mem_updateOne {id : ObjectId} {f : User → User} {users : List User} {v : User}
    (h : v ∈ updateOne id f users) : v ∈ users ∨ ∃ d ∈ users, v = f d := by
  induction users with
  | nil => simp [updateOne] at h
  | cons u us ih =>
    by_cases hu : u._id = id
    · simp only [updateOne, hu, if_true, List.mem_cons] at h
      rcases h with h | h
      · exact Or.inr ⟨u, List.mem_cons_self _ _, h⟩
      · exact Or.inl (List.mem_cons_of_mem _ h)
    · simp only [updateOne, hu, if_false, List.mem_cons] at h
      rcases h with h | h
      · exact Or.inl (h ▸ List.mem_cons_self _ _)
      · rcases ih h with h1 | ⟨d, hd, h2⟩
        · exact Or.inl (List.mem_cons_of_mem _ h1)
        · exact Or.inr ⟨d, List.mem_cons_of_mem _ hd, h2⟩

/-- A write of modified paths that keeps the counters right does so in the whole
collection. -/
theorem countsAgree_updateOne (id : ObjectId) (f : User → User) (users : List User)
    (hf : ∀ d, countsAgree d → countsAgree (f d)) (h : ∀ u ∈ users, countsAgree u) :
    ∀ u ∈ updateOne id f users, countsAgree u := by
  intro v hv
  rcases mem_updateOne hv with h1 | ⟨d, hd, rfl⟩
  · exact h v h1
  · exact hf d (h d hd)

/-- Registration keeps the counters of every user right, those of the new user
included. -/
theorem countsAgree_register (hash : String → String) (s : Store) (newId : ObjectId)
    (name email password : Option String) (h : ∀ u ∈ s.users, countsAgree u) :
    ∀ u ∈ (register hash s newId name email password).1.users, countsAgree u := by
  unfold register
  cases password with
  | none => exact h
  | some pw =>
    dsimp only
    split
    · exact h
    · intro u hu
      rcases List.mem_append.mp hu with h1 | h1
      · exact h u h1
      · rw [List.mem_singleton.mp h1]
        simp [countsAgree]

/-- The follow branch keeps the counters of every user right. -/
theorem countsAgree_follow (s : Store) (a b : ObjectId) (ua ub : User)
    (ha : findById s.users (some a) = some ua) (hb : findById s.users (some b) = some ub)
    (hnot : a ∉ ub.followersList) (h : ∀ u ∈ s.users, countsAgree u) :
    ∀ u ∈ (toggleFollow s b (some a)).1.users, countsAgree u := by
  rw [(toggleFollow_follow_eq s a b ua ub ha hb hnot).1]
  apply countsAgree_updateOne
  · intro d hd
    exact ⟨hd.1, rfl, hd.2.2⟩
  · apply countsAgree_updateOne
    · intro d hd
      exact ⟨rfl, hd.2.1, hd.2.2⟩
    · exact h

/-- Creating a post keeps the counters of every user right. -/
theorem countsAgree_createPost (s : Store) (newId : ObjectId) (now : Nat)
    (userId : Option ObjectId) (content : Option String) (h : ∀ u ∈ s.users, countsAgree u) :
    ∀ u ∈ (createPost s newId now userId content).1.users, countsAgree u := by
  unfold createPost
  split
  · exact h
  · split
    · dsimp only
      split
      · exact h
      · apply countsAgree_updateOne
        · intro d hd
          exact ⟨hd.1, hd.2.1, rfl⟩
        · exact h
    · exact h

/-- The subtraction of the unfollow branch leaves 1 of every positive count. -/
theorem sub_decrFloor (n : Int) (h : 1 ≤ n) : n - decrFloor n = 1 := by
  unfold decrFloor
  rw [max_eq_right (by omega)]
  omega

/-- The unfollow branch, for distinct users, leaves the followers count of the
target at 1 whenever it was positive, and the following count of the acting user
one lower, not below zero. -/
theorem unfollow_counts (s : Store) (a b : ObjectId) (ua ub : User) (hab : a ≠ b)
    (ha : findById s.users (some a) = some ua) (hb : findById s.users (some b) = some ub)
    (hin : a ∈ ub.followersList) (hpos : 1 ≤ ub.followersCount) :
    ∃ ua' ub', findById (toggleFollow s b (some a)).1.users (some a) = some ua'
      ∧ findById (toggleFollow s b (some a)).1.users (some b) = some ub'
      ∧ ub'.followersCount = 1
      ∧ ua'.followingCount = max 0 (ua.followingCount - 1) := by
  obtain ⟨h1, h2⟩ := findById_after_unfollow s a b ua ub hab ha hb hin
  exact ⟨_, _, h1, h2, sub_decrFloor _ hpos, rfl⟩

/-- C4, evaluated where user 1 follows user 2 and then unfollows: both list
entries are removed and the following count of user 1 becomes
`decrFloor 1 = 0`, but the followers count of user 2 stays 1, since the handler
subtracts `decrFloor 1` from the old count where the claim has the new count be
`decrFloor 1 = 0`. -/
theorem toggleFollow_unfollow_followersCount :
    1 ∈ ({ bobNew with followersList := [1], followersCount := 1 } : User).followersList
      ∧ findById oneEdge.users (some 2)
          = some { bobNew with followersList := [1], followersCount := 1 }
      ∧ findById (toggleFollow oneEdge 2 (some 1)).1.users (some 2)
          = some { bobNew with followersList := [], followersCount := 1 }
      ∧ findById (toggleFollow oneEdge 2 (some 1)).1.users (some 1)
          = some { aliceNew with followingList := [], followingCount := 0 }
      ∧ decrFloor 1 = 0 := by
  refine ⟨by decide, rfl, ?_, ?_, by decide⟩ <;> rfl

/-- C3, evaluated on the run from the empty store that registers users 1 and 2,
has user 1 follow user 2 and then unfollow: every counter is the length of its
list up to the unfollow, and after it user 2 has an empty followers list with
followers count 1. -/
theorem countsAgree_broken_by_unfollow (hash : String → String) :
    (toggleFollow (register hash (register hash Store.empty 1 (some "alice")
        (some "alice@example.org") (some "pw1")).1 2 (some "bob") (some "bob@example.org")
        (some "pw2")).1 2 (some 1)).1.users
      = [{ aliceNew with password := hash "pw1", followingList := [2], followingCount := 1 },
         { bobNew with password := hash "pw2", followersList := [1], followersCount := 1 }]
    ∧ (∀ u ∈ (toggleFollow (register hash (register hash Store.empty 1 (some "alice")
        (some "alice@example.org") (some "pw1")).1 2 (some "bob") (some "bob@example.org")
        (some "pw2")).1 2 (some 1)).1.users, countsAgree u)
    ∧ (toggleFollow (toggleFollow (register hash (register hash Store.empty 1 (some "alice")
        (some "alice@example.org") (some "pw1")).1 2 (some "bob") (some "bob@example.org")
        (some "pw2")).1 2 (some 1)).1 2 (some 1)).1.users
      = [{ aliceNew with password := hash "pw1" },
         { bobNew with password := hash "pw2", followersList := [], followersCount := 1 }]
    ∧ ¬ countsAgree { bobNew with password := hash "pw2", followersList := [],
                                   followersCount := 1 } := by
  have h3 : (toggleFollow (register hash (register hash Store.empty 1 (some "alice")
        (some "alice@example.org") (some "pw1")).1 2 (some "bob") (some "bob@example.org")
        (some "pw2")).1 2 (some 1)).1
      = { users :=
            [{ aliceNew with password := hash "pw1", followingList := [2], followingCount := 1 },
             { bobNew with password := hash "pw2", followersList := [1], followersCount := 1 }],
          posts := [] } := by
    simp [register, Store.empty, toggleFollow, findById, updateOne, aliceNew, bobNew]
  rw [h3]
  refine ⟨rfl, ?_, ?_, ?_⟩
  · simp [countsAgree, aliceNew, bobNew]
  · simp [toggleFollow, findById, updateOne, aliceNew, bobNew, decrFloor]
  · simp [countsAgree, bobNew]

/-! ## UserStatus -/

/-- C10: `userStatus s (some caller)` answers with one entry for each user other
than the caller, in the order of the collection, and with no entry for the
caller; the `isFollowing` of an entry is true exactly when the caller is in the
followers list of the entry's user. -/
theorem userStatus_entries (s : Store) (caller : ObjectId) :
    (userStatus s (some caller)).status = 200
      ∧ List.Forall₂
          (fun (u : User) (e : UserStatusEntry) =>
            e._id = u._id ∧ e.name = u.name ∧ (e.isFollowing = true ↔ caller ∈ u.followersList))
          (s.users.filter (fun u => decide (u._id ≠ caller)))
          (userStatus s (some caller)).body
      ∧ (∀ e ∈ (userStatus s (some caller)).body, e._id ≠ caller)
      ∧ (∀ u ∈ s.users, u._id ≠ caller →
          ∃ e ∈ (userStatus s (some caller)).body, e._id = u._id) := by
  have hfilter : s.users.filter (fun user => decide (some user._id ≠ some caller))
      = s.users.filter (fun u => decide (u._id ≠ caller)) := by
    congr 1
    funext u
    simp
  refine ⟨rfl, ?_, ?_, ?_⟩
  · simp only [userStatus, hfilter, List.forall₂_map_right_iff]
    exact List.forall₂_same.mpr (fun u _ => ⟨rfl, rfl, by simp [includes]⟩)
  · intro e he
    simp only [userStatus, hfilter, List.mem_map, List.mem_filter] at he
    obtain ⟨u, ⟨_, hu⟩, rfl⟩ := he
    simpa using hu
  · intro u hu hne
    simp only [userStatus, hfilter, List.mem_map, List.mem_filter]
    exact ⟨_, ⟨u, ⟨hu, by simpa using hne⟩, rfl⟩, rfl⟩

/-! ## GetFeed -/

/-- The feed of an existing user, as the handler computes it. -/
theorem getFeed_eq (s : Store) (a : ObjectId) (ua : User)
    (ha : findById s.users (some a) = some ua) :
    getFeed s a
      = { status := 200,
          body := .feed ((findPostsIn s.posts ua.followingList).map (populateUser s.users)) } := by
  simp only [getFeed, ha]

/-- C5: for an existing user `a`, `getFeed s a` answers with the posts `ps` of the
store whose owner is in the following list of `a`, each exactly as often as the
store holds it and none else, each with its owner populated, in an order where
the `createdAt` of a post is at least that of every post after it; `ps` is empty
when `a` follows nobody and when the store holds no such post. -/
theorem getFeed_posts (s : Store) (a : ObjectId) (ua : User)
    (ha : findById s.users (some a) = some ua) :
    ∃ ps : List Post,
      getFeed s a = { status := 200, body := .feed (ps.map (populateUser s.users)) }
      ∧ ps.Perm (s.posts.filter (fun p => decide (p.user ∈ ua.followingList)))
      ∧ (∀ p, p ∈ ps ↔ p ∈ s.posts ∧ p.user ∈ ua.followingList)
      ∧ (ps.map (populateUser s.users)).Pairwise (fun e e' => e'.createdAt ≤ e.createdAt)
      ∧ (ua.followingList = [] → ps = [])
      ∧ ((∀ p ∈ s.posts, p.user ∉ ua.followingList) → ps = []) := by
  have hperm : (findPostsIn s.posts ua.followingList).Perm
      (s.posts.filter (fun p => decide (p.user ∈ ua.followingList))) :=
    List.perm_insertionSort _ _
  have hsorted : (findPostsIn s.posts ua.followingList).Pairwise newerFirst :=
    List.sorted_insertionSort _ _
  have hnil : (∀ p ∈ s.posts, p.user ∉ ua.followingList) →
      findPostsIn s.posts ua.followingList = [] := by
    intro h
    apply List.Perm.eq_nil
    have : s.posts.filter (fun p => decide (p.user ∈ ua.followingList)) = [] := by
      simpa [List.filter_eq_nil_iff] using h
    exact this ▸ hperm
  refine ⟨findPostsIn s.posts ua.followingList, getFeed_eq s a ua ha, hperm, ?_, ?_, ?_, hnil⟩
  · intro p
    rw [hperm.mem_iff]
    simp [List.mem_filter]
  · rw [List.pairwise_map]
    exact hsorted.imp (fun h => h)
  · intro h
    apply hnil
    simp [h]

/-- Witness of C5 on the store of three posts: the feed of user 1, who follows
users 2 and 3. -/
theorem getFeed_posts_witness :
    ∃ ps : List Post,
      getFeed feedStore 1
        = { status := 200, body := .feed (ps.map (populateUser feedStore.users)) }
      ∧ ps.Perm (feedStore.posts.filter (fun p => decide (p.user ∈ [2, 3])))
      ∧ (∀ p, p ∈ ps ↔ p ∈ feedStore.posts ∧ p.user ∈ [2, 3])
      ∧ (ps.map (populateUser feedStore.users)).Pairwise
          (fun e e' => e'.createdAt ≤ e.createdAt)
      ∧ (([2, 3] : List ObjectId) = [] → ps = [])
      ∧ ((∀ p ∈ feedStore.posts, p.user ∉ [2, 3]) → ps = []) :=
  getFeed_posts feedStore 1
    { aliceNew with followingList := [2, 3], followingCount := 2, postsList := [12],
                    postsCount := 1 } rfl

/-! ## CreatePost -/

/-- The guard of `createPost`, case by case. -/
theorem invalidPostData_iff (userId : Option ObjectId) (content : Option String) :
    invalidPostData userId content = true
      ↔ (userId = none ∨ content = none ∨ content = some ""
          ∨ ∃ c, content = some c ∧ 100 < jsLength c) := by
  cases userId with
  | none => simp [invalidPostData]
  | some uid =>
    cases content with
    | none => simp [invalidPostData]
    | some c => simp [invalidPostData]

/-- C6: `createPost` answers 400 exactly when `userId` is absent, `content` is
absent or empty, or `content` has more than 100 code units, whatever the store
holds; a call answered 400 is exactly one that returns the store as it was with
the body "Invalid post data". In particular a content of length 101 is answered
400, and a content of length 100 from an existing user, stored under a fresh
identifier, is answered 201. -/
theorem createPost_invalid_iff (s : Store) (newId : ObjectId) (now : Nat)
    (userId : Option ObjectId) (content : Option String) :
    ((createPost s newId now userId content).2.status = 400
        ↔ (userId = none ∨ content = none ∨ content = some ""
            ∨ ∃ c, content = some c ∧ 100 < jsLength c))
      ∧ ((createPost s newId now userId content).2.status = 400
        ↔ createPost s newId now userId content
            = (s, { status := 400, body := .invalidPostData }))
      ∧ (∀ c, content = some c → jsLength c = 101 →
          (createPost s newId now userId content).2.status = 400)
      ∧ (∀ c uid u, userId = some uid → content = some c → jsLength c = 100 →
          findById s.users (some uid) = some u → (∀ p ∈ s.posts, p._id ≠ newId) →
          (createPost s newId now userId content).2.status = 201) := by
  have key : (createPost s newId now userId content).2.status = 400
      ↔ invalidPostData userId content = true := by
    unfold createPost
    by_cases hv : invalidPostData userId content = true
    · simp [hv]
    · have hv' : invalidPostData userId content = false := by simpa using hv
      simp only [hv', Bool.false_eq_true, if_false]
      split
      · split <;> simp
      · simp
  refine ⟨key.trans (invalidPostData_iff userId content), ?_, ?_, ?_⟩
  · constructor
    · intro h
      have hv := key.mp h
      simp [createPost, hv]
    · intro h
      rw [h]
  · intro c hc hlen
    exact (key.trans (invalidPostData_iff userId content)).mpr
      (Or.inr (Or.inr (Or.inr ⟨c, hc, by omega⟩)))
  · intro c uid u huid hc hlen hu hfresh
    subst huid hc
    have hne : c ≠ "" := by
      rintro rfl
      simp [jsLength] at hlen
    have hv : invalidPostData (some uid) (some c) = false := by
      simp [invalidPostData, hne, hlen]
    have hany : (s.posts.any (fun p => decide (p._id = newId))) = false := by
      simpa using hfresh
    simp [createPost, hv, hu, hany]

/-- Witness of C6 on the store of two users: a content of 101 code units is
answered 400, one of 100 code units is answered 201. -/
theorem createPost_invalid_iff_witness :
    (createPost twoUsers 10 1000 (some 2) (some (contentOfLength 101))).2.status = 400
      ∧ (createPost twoUsers 10 1000 (some 2) (some (contentOfLength 100))).2.status = 201 :=
  ⟨(createPost_invalid_iff twoUsers 10 1000 (some 2) (some (contentOfLength 101))).2.2.1
      (contentOfLength 101) rfl (by simp [jsLength, contentOfLength]),
    (createPost_invalid_iff twoUsers 10 1000 (some 2) (some (contentOfLength 100))).2.2.2
      (contentOfLength 100) 2 bobNew rfl rfl (by simp [jsLength, contentOfLength]) rfl
      (by simp [twoUsers])⟩

/-- C7: for an existing user `uid` and a content that is not empty and has at most
100 code units, `createPost`, given a fresh post identifier, adds one post owned
by `uid` to the posts, puts the identifier of the post at the end of the posts
list of the user, whose earlier entries stay as they were, sets the posts count
to the length of the new list, and answers 201 with the post and a user summary
whose posts count is that length. -/
theorem createPost_creates (s : Store) (newId : ObjectId) (now : Nat) (uid : ObjectId)
    (c : String) (u : User) (hu : findById s.users (some uid) = some u) (hc1 : c ≠ "")
    (hc2 : jsLength c ≤ 100) (hfresh : ∀ p ∈ s.posts, p._id ≠ newId) :
    (createPost s newId now (some uid) (some c)).1.posts
        = s.posts ++ [{ _id := newId, user := uid, content := c, createdAt := now }]
      ∧ findById (createPost s newId now (some uid) (some c)).1.users (some uid)
        = some { u with
            postsList := u.postsList ++ [newId],
            postsCount := ((u.postsList ++ [newId]).length : Int) }
      ∧ (createPost s newId now (some uid) (some c)).2
        = { status := 201,
            body := .created { _id := newId, user := uid, content := c, createdAt := now }
              { id := uid, name := u.name,
                postsCount := ((u.postsList ++ [newId]).length : Int) } }
      ∧ (u.postsList ++ [newId]).length = u.postsList.length + 1 := by
  have hid := findById_id hu
  have hv : invalidPostData (some uid) (some c) = false := by
    simp [invalidPostData, hc1, hc2]
  have hany : (s.posts.any (fun p => decide (p._id = newId))) = false := by
    simpa using hfresh
  have hstore : createPost s newId now (some uid) (some c)
      = ({ users := updateOne uid (fun d => { d with
              postsList := u.postsList ++ [newId],
              postsCount := ((u.postsList ++ [newId]).length : Int) }) s.users,
           posts := s.posts ++ [{ _id := newId, user := uid, content := c, createdAt := now }] },
         { status := 201,
           body := .created { _id := newId, user := uid, content := c, createdAt := now }
             { id := uid, name := u.name,
               postsCount := ((u.postsList ++ [newId]).length : Int) } }) := by
    simp [createPost, hv, hu, hany, hid]
  rw [hstore]
  refine ⟨rfl, ?_, rfl, by simp⟩
  show findById (updateOne uid _ s.users) (some uid) = _
  rw [findById_updateOne, hu]
  · simp
  · exact fun _ => rfl

/-- Witness of C7 on the store of two users: user 2 posts "hello". -/
theorem createPost_creates_witness :
    (createPost twoUsers 10 1000 (some 2) (some "hello")).1.posts
        = twoUsers.posts ++ [{ _id := 10, user := 2, content := "hello", createdAt := 1000 }]
      ∧ findById (createPost twoUsers 10 1000 (some 2) (some "hello")).1.users (some 2)
        = some { bobNew with
            postsList := bobNew.postsList ++ [10],
            postsCount := ((bobNew.postsList ++ [10]).length : Int) }
      ∧ (createPost twoUsers 10 1000 (some 2) (some "hello")).2
        = { status := 201,
            body := .created { _id := 10, user := 2, content := "hello", createdAt := 1000 }
              { id := 2, name := bobNew.name,
                postsCount := ((bobNew.postsList ++ [10]).length : Int) } }
      ∧ (bobNew.postsList ++ [10]).length = bobNew.postsList.length + 1 :=
  createPost_creates twoUsers 10 1000 2 "hello" bobNew rfl (by decide)
    (by simp [jsLength]) (by simp [twoUsers])

/-! ## The scenario: register, follow, post, read the feed -/

/-- The store at the end of the scenario. -/
theorem followThenPost_eq (hash : String → String) (a b postId now : Nat)
    (nameA nameB emailA emailB : Option String) (pwA pwB c : String)
    (hab : a ≠ b) (hemail : emailA ≠ emailB) (hc1 : c ≠ "") (hc2 : jsLength c ≤ 100) :
    followThenPost hash a b postId now nameA nameB emailA emailB pwA pwB c
      = { users :=
            [{ _id := a, name := nameA, email := emailA, password := hash pwA,
               followersCount := 0, followingCount := 1, followersList := [],
               followingList := [b], postsCount := 0, postsList := [] },
             { _id := b, name := nameB, email := emailB, password := hash pwB,
               followersCount := 1, followingCount := 0, followersList := [a],
               followingList := [], postsCount := 1, postsList := [postId] }],
          posts := [{ _id := postId, user := b, content := c, createdAt := now }] } := by
  have hba : b ≠ a := fun h => hab h.symm
  have hv : invalidPostData (some b) (some c) = false := by
    simp [invalidPostData, hc1, hc2]
  simp [followThenPost, register, Store.empty, toggleFollow, findById, updateOne, createPost,
    hab, hba, hemail, hv]

/-- C9: from the empty store, for users `a` and `b` registered under distinct
identifiers with distinct emails and a content `c` that is not empty and has at
most 100 code units: after `a` follows `b` and `b` posts `c`, `getFeed` for `a`
answers with a one-element sequence, the post of `b` with the name of `b` attached
as its owner. -/
theorem getFeed_followThenPost (hash : String → String) (a b postId now : Nat)
    (nameA nameB emailA emailB : Option String) (pwA pwB c : String)
    (hab : a ≠ b) (hemail : emailA ≠ emailB) (hc1 : c ≠ "") (hc2 : jsLength c ≤ 100) :
    getFeed (followThenPost hash a b postId now nameA nameB emailA emailB pwA pwB c) a
      = { status := 200,
          body := .feed [{ _id := postId, user := some { _id := b, name := nameB },
                           content := c, createdAt := now }] } := by
  have hba : b ≠ a := fun h => hab h.symm
  rw [followThenPost_eq hash a b postId now nameA nameB emailA emailB pwA pwB c hab hemail hc1 hc2]
  simp [getFeed, findById, findPostsIn, populateUser, List.find?_cons, hab, hba]

/-- Witness of C9: users 1 and 2 register, 1 follows 2, 2 posts "hello". -/
theorem getFeed_followThenPost_witness :
    getFeed (followThenPost (fun pw => pw) 1 2 10 1000 (some "alice") (some "bob")
        (some "alice@example.org") (some "bob@example.org") "pw1" "pw2" "hello") 1
      = { status := 200,
          body := .feed [{ _id := 10, user := some { _id := 2, name := some "bob" },
                           content := "hello", createdAt := 1000 }] } :=
  getFeed_followThenPost (fun pw => pw) 1 2 10 1000 (some "alice") (some "bob")
    (some "alice@example.org") (some "bob@example.org") "pw1" "pw2" "hello"
    (by decide) (by decide) (by decide) (by simp [jsLength])

/-! ## The follow edges -/

/-- Where identifiers are unique, every document of the collection is the one
that `findById` returns for its identifier. -/
theorem findById_of_mem {users : List User} (hnd : (users.map User._id).Nodup) {u : User}
    (hu : u ∈ users) : findById users (some u._id) = some u := by
  induction users with
  | nil => simp at hu
  | cons v vs ih =>
    simp only [List.map_cons, List.nodup_cons] at hnd
    simp only [findById, List.find?_cons]
    rcases List.mem_cons.mp hu with h | h
    · subst h
      simp
    · have hne : ¬ v._id = u._id := fun heq => hnd.1 (heq ▸ List.mem_map_of_mem User._id h)
      simp only [hne, decide_False]
      exact ih hnd.2 h

/-- After the two writes of `toggleFollow`, for distinct users `a` and `b`, a
document of the collection is the written document of `a`, the written document
of `b`, or a document of before with another identifier. -/
theorem mem_after_writes (users : List User) (a b : ObjectId) (ua ub : User) (hab : a ≠ b)
    (ha : findById users (some a) = some ua) (hb : findById users (some b) = some ub)
    (hnd : (users.map User._id).Nodup) (f g : User → User)
    (hf : ∀ d, (f d)._id = d._id) (hg : ∀ d, (g d)._id = d._id) (v : User)
    (hv : v ∈ updateOne a f (updateOne b g users)) :
    v = f ua ∨ v = g ub ∨ (v ∈ users ∧ v._id ≠ a ∧ v._id ≠ b) := by
  have hnd2 : ((updateOne a f (updateOne b g users)).map User._id).Nodup := by
    rw [map_id_updateOne a f hf, map_id_updateOne b g hg]
    exact hnd
  have hfind := findById_of_mem hnd2 hv
  rw [findById_updateOne a _ f hf, findById_updateOne b _ g hg] at hfind
  by_cases hva : v._id = a
  · left
    have hvb : ¬ v._id = b := fun h => hab (hva.symm.trans h)
    rw [hva] at hfind
    rw [ha] at hfind
    simpa [hab] using hfind.symm
  · by_cases hvb : v._id = b
    · right; left
      rw [hvb] at hfind
      rw [hb] at hfind
      have hba : ¬ b = a := fun h => hab h.symm
      simpa [hba] using hfind.symm
    · right; right
      cases hfv : findById users (some v._id) with
      | none => simp [hfv] at hfind
      | some w =>
        rw [hfv] at hfind
        have hw : w = v := by simpa [hva, hvb] using hfind
        exact ⟨hw ▸ findById_mem hfv, hva, hvb⟩

/-- Two writes that change the following list of `a` at most at `b`, the
followers list of `b` at most at `a`, and these two alike, keep the follow edges
on both sides. -/
theorem edgesConsistent_writes (users : List User) (a b : ObjectId) (ua ub : User)
    (hab : a ≠ b) (ha : findById users (some a) = some ua)
    (hb : findById users (some b) = some ub) (hnd : (users.map User._id).Nodup)
    (h : edgesConsistent users) (fl gl : List ObjectId) (fc gc : Int)
    (h1 : ∀ j, j ≠ b → (j ∈ fl ↔ j ∈ ua.followingList))
    (h2 : ∀ j, j ≠ a → (j ∈ gl ↔ j ∈ ub.followersList))
    (h3 : a ∈ gl ↔ b ∈ fl) :
    edgesConsistent
      (updateOne a (fun d => { d with followingList := fl, followingCount := fc })
        (updateOne b (fun d => { d with followersList := gl, followersCount := gc }) users)) := by
  have hba : b ≠ a := fun heq => hab heq.symm
  have hida := findById_id ha
  have hidb := findById_id hb
  have hma := findById_mem ha
  have hmb := findById_mem hb
  have key := mem_after_writes users a b ua ub hab ha hb hnd
    (fun d => { d with followingList := fl, followingCount := fc })
    (fun d => { d with followersList := gl, followersCount := gc })
    (fun _ => rfl) (fun _ => rfl)
  intro x hx y hy
  rcases key x hx with rfl | rfl | ⟨hxm, hxa, hxb⟩ <;>
  rcases key y hy with rfl | rfl | ⟨hym, hya, hyb⟩
  · show ua._id ∈ ua.followersList ↔ ua._id ∈ fl
    rw [hida, h1 a hab, ← hida]
    exact h ua hma ua hma
  · show ua._id ∈ gl ↔ ub._id ∈ fl
    rw [hida, hidb]
    exact h3
  · show ua._id ∈ y.followersList ↔ y._id ∈ fl
    rw [h1 _ hyb]
    exact h ua hma y hym
  · show ub._id ∈ ua.followersList ↔ ua._id ∈ ub.followingList
    exact h ub hmb ua hma
  · show ub._id ∈ gl ↔ ub._id ∈ ub.followingList
    rw [hidb, h2 b hba, ← hidb]
    exact h ub hmb ub hmb
  · show ub._id ∈ y.followersList ↔ y._id ∈ ub.followingList
    exact h ub hmb y hym
  · show x._id ∈ ua.followersList ↔ ua._id ∈ x.followingList
    exact h x hxm ua hma
  · show x._id ∈ gl ↔ ub._id ∈ x.followingList
    rw [h2 _ hxa]
    exact h x hxm ub hmb
  · exact h x hxm y hym

/-- Registration keeps the identifiers of the collection unique: the insert is
refused on a taken identifier. -/
theorem nodup_ids_register (hash : String → String) (s : Store) (newId : ObjectId)
    (name email password : Option String) (hnd : (s.users.map User._id).Nodup) :
    ((register hash s newId name email password).1.users.map User._id).Nodup := by
  unfold register
  cases password with
  | none => exact hnd
  | some pw =>
    dsimp only
    split
    · exact hnd
    · next hany =>
      simp only [List.map_append, List.map_cons, List.map_nil]
      refine List.Nodup.append hnd (List.nodup_singleton _) ?_
      simp only [List.disjoint_singleton, List.mem_map, not_exists, not_and]
      intro u hu heq
      apply hany
      simp only [List.any_eq_true, Bool.or_eq_true, decide_eq_true_eq]
      exact ⟨u, hu, Or.inl heq⟩

/-- Creating a post keeps the identifiers of the users, in order. -/
theorem map_id_createPost (s : Store) (newId : ObjectId) (now : Nat)
    (userId : Option ObjectId) (content : Option String) :
    (createPost s newId now userId content).1.users.map User._id = s.users.map User._id := by
  unfold createPost
  split
  · rfl
  · split
    · dsimp only
      split
      · rfl
      · apply map_id_updateOne
        exact fun _ => rfl
    · rfl

/-- C11: keeping the follow edges on both sides is an invariant of `toggleFollow`.
In a store whose user identifiers are unique and where, for all users `x` and
`y`, `x` is in the followers list of `y` exactly when `y` is in the following
list of `x`, a call `toggleFollow s b (some a)` for distinct existing users `a`
and `b` answers 200, keeps the identifiers of the users, and leaves a store where
the same holds; the call follows when `a` is not in the followers list of `b`
and unfollows when it is, and the statement covers both. -/
theorem toggleFollow_edgesConsistent (s : Store) (a b : ObjectId) (ua ub : User)
    (hab : a ≠ b) (ha : findById s.users (some a) = some ua)
    (hb : findById s.users (some b) = some ub) (hnd : (s.users.map User._id).Nodup)
    (h : edgesConsistent s.users) :
    (toggleFollow s b (some a)).2.status = 200
      ∧ (toggleFollow s b (some a)).1.users.map User._id = s.users.map User._id
      ∧ edgesConsistent (toggleFollow s b (some a)).1.users
      ∧ ((toggleFollow s b (some a)).2.body = .unfollowed ↔ a ∈ ub.followersList) := by
  have hba : b ≠ a := fun heq => hab heq.symm
  by_cases hin : a ∈ ub.followersList
  · obtain ⟨husers, _, hresp⟩ := toggleFollow_unfollow_eq s a b ua ub hab ha hb hin
    rw [husers, hresp]
    refine ⟨rfl, ?_, ?_, ?_⟩
    · rw [map_id_updateOne, map_id_updateOne] <;> exact fun _ => rfl
    · apply edgesConsistent_writes s.users a b ua ub hab ha hb hnd h
      · intro j hj
        simp [List.mem_filter, hj]
      · intro j hj
        simp [List.mem_filter, hj]
      · simp [List.mem_filter]
    · simp [hin]
  · obtain ⟨husers, _, hresp⟩ := toggleFollow_follow_eq s a b ua ub ha hb hin
    rw [husers, hresp]
    refine ⟨rfl, ?_, ?_, ?_⟩
    · rw [map_id_updateOne, map_id_updateOne] <;> exact fun _ => rfl
    · apply edgesConsistent_writes s.users a b ua ub hab ha hb hnd h
      · intro j hj
        simp [hj]
      · intro j hj
        simp [hj]
      · simp
    · simp [hin]

/-- Witness of C11 on both paths: user 1 follows user 2 in the store of two users
without an edge, and unfollows user 2 in the store where the edge is there. -/
theorem toggleFollow_edgesConsistent_witness :
    ((toggleFollow twoUsers 2 (some 1)).2.status = 200
      ∧ (toggleFollow twoUsers 2 (some 1)).1.users.map User._id = twoUsers.users.map User._id
      ∧ edgesConsistent (toggleFollow twoUsers 2 (some 1)).1.users
      ∧ ((toggleFollow twoUsers 2 (some 1)).2.body = .unfollowed ↔ 1 ∈ bobNew.followersList))
    ∧ ((toggleFollow oneEdge 2 (some 1)).2.status = 200
      ∧ (toggleFollow oneEdge 2 (some 1)).1.users.map User._id = oneEdge.users.map User._id
      ∧ edgesConsistent (toggleFollow oneEdge 2 (some 1)).1.users
      ∧ ((toggleFollow oneEdge 2 (some 1)).2.body = .unfollowed
          ↔ 1 ∈ ({ bobNew with followersList := [1], followersCount := 1 } : User).followersList)) :=
  ⟨toggleFollow_edgesConsistent twoUsers 1 2 aliceNew bobNew (by decide) rfl rfl
      (by decide) (by decide),
    toggleFollow_edgesConsistent oneEdge 1 2
      { aliceNew with followingList := [2], followingCount := 1 }
      { bobNew with followersList := [1], followersCount := 1 } (by decide) rfl rfl
      (by decide) (by decide)⟩

end TweetX
